import Mathlib

/-!
Verification of the business-insights dashboard (`app.py`).

The program is a single-file analytics dashboard over a retail transaction
log.  We embed its data pipeline shallowly: a pandas `DataFrame` of
transactions becomes a `List` of records, column filters become
`List.filter`, derived-column assignment becomes `List.map`, `groupby`
aggregations become sums over filtered lists, and the external itemset
miners (`apriori` / `fpgrowth` from mlxtend) are modelled by their defining
specification, parametrised so the handler's control flow can be stated on
any implementation.
-/

namespace BIA

/-- A parsed invoice timestamp (pandas `Timestamp`), with the fields the
dashboard reads: calendar date plus hour and minute. -/
structure Timestamp where
  year : Nat
  month : Nat
  day : Nat
  hourOfDay : Nat
  minute : Nat
deriving DecidableEq

/-- A raw transaction row of `OnlineRetail.csv`, with the columns the code
reads: `InvoiceNo`, `StockCode`, `Description`, `Quantity`, `InvoiceDate`,
`UnitPrice`, `CustomerID`, `Country`.  `CustomerID` is optional because the
raw file has null customer ids (`dropna` removes them). -/
structure Record where
  invoiceNo : String
  stockCode : String
  description : String
  quantity : Int
  invoiceDate : Timestamp
  unitPrice : Rat
  customerID : Option String
  country : String
deriving DecidableEq

/-- A cleaned row: a raw row plus the derived `Revenue` column. -/
structure CleanedRecord extends Record where
  revenue : Rat
deriving DecidableEq

/-- `str.startswith` on strings, computed on the character lists (so that
concrete instances evaluate inside the kernel). -/
def strStartsWith (s pre : String) : Bool :=
  pre.toList.isPrefixOf s.toList

/-- `load_data` (app.py lines 15-22): drop rows with null `CustomerID`,
drop rows whose `InvoiceNo` starts with `"C"` (cancellations), keep rows
with `Quantity > 0`, then add `Revenue = Quantity * UnitPrice`.
Date parsing (`pd.to_datetime`) is the identity here because the embedded
`invoiceDate` is already a `Timestamp`. -/
def load_data (raw : List Record) : List CleanedRecord :=
  (((raw.filter (fun r => r.customerID.isSome)).filter
      (fun r => !(strStartsWith r.invoiceNo "C"))).filter
      (fun r => decide (0 < r.quantity))).map
    (fun r => { toRecord := r, revenue := (r.quantity : Rat) * r.unitPrice })

/-- Total of the `Revenue` column (`df['Revenue'].sum()`, app.py line 39). -/
def totalRevenue (df : List CleanedRecord) : Rat :=
  (df.map (·.revenue)).sum

/-- Per-country revenue aggregate
(`df.groupby("Country")["Revenue"].sum()`, app.py line 139). -/
def country_sales (df : List CleanedRecord) (c : String) : Rat :=
  ((df.filter (fun r => decide (r.country = c))).map (·.revenue)).sum

/-- The group keys of `df.groupby("Country")`: the distinct countries. -/
def countries (df : List CleanedRecord) : List String :=
  (df.map (·.country)).dedup

/-- `get_category` (app.py lines 77-82): the first keyword that occurs as a
substring of the upper-cased description, else `"OTHER"`. -/
def get_category (desc : String) : String :=
  match ["HOLDER", "SET", "CUP", "BOTTLE", "LANTERN", "HEART"].find?
      (fun k => decide (k.toList <:+: desc.toUpper.toList)) with
  | some k => k
  | none => "OTHER"

/-- Day-of-week name of a timestamp (pandas `dt.day_name()`), modelled with
Zeller's congruence on the calendar date. -/
def dayName (t : Timestamp) : String :=
  let m := if t.month < 3 then t.month + 12 else t.month
  let y := if t.month < 3 then t.year - 1 else t.year
  let k := y % 100
  let j := y / 100
  let h := (t.day + (13 * (m + 1)) / 5 + k + k / 4 + j / 4 + 5 * j) % 7
  ["Saturday", "Sunday", "Monday", "Tuesday",
   "Wednesday", "Thursday", "Friday"].getD h "Saturday"

/-- Month period of a timestamp (pandas `dt.to_period("M")`). -/
def monthPeriod (t : Timestamp) : Nat × Nat :=
  (t.year, t.month)

/-- A row of the in-memory dataframe during a session: the cleaned record
produced by the loader plus the derived columns some handlers assign
(`DayOfWeek`, `Hour`, `Category`, `Month`), absent until assigned. -/
structure Row where
  base : CleanedRecord
  dayOfWeek : Option String := none
  hourCol : Option Nat := none
  category : Option String := none
  monthCol : Option (Nat × Nat) := none
deriving DecidableEq

/-- The dataframe as it exists right after `df = load_data()`: no derived
handler columns yet. -/
def initRows (df : List CleanedRecord) : List Row :=
  df.map (fun r => { base := r })

/-- The eight sidebar sections (app.py lines 28-30). -/
inductive ReportSection
  | sales
  | timeSeries
  | segmentation
  | basket
  | country
  | price
  | fraud
  | retention
deriving DecidableEq

/-- The effect of each report handler on the cached dataframe `df`.
`Sales Performance` assigns `DayOfWeek`, `Hour` (lines 64-65) and
`Category` (line 83); `Time-Series Analysis` assigns `Month` (line 93).
Every other handler only reads `df` (the retention handler sorts a fresh
copy `df_sorted` and adds columns to that copy only). -/
def runSection (s : ReportSection) (rows : List Row) : List Row :=
  match s with
  | .sales =>
      rows.map (fun r =>
        { r with
          dayOfWeek := some (dayName r.base.invoiceDate)
          hourCol := some r.base.invoiceDate.hourOfDay
          category := some (get_category r.base.description) })
  | .timeSeries =>
      rows.map (fun r => { r with monthCol := some (monthPeriod r.base.invoiceDate) })
  | .segmentation => rows
  | .basket => rows
  | .country => rows
  | .price => rows
  | .fraud => rows
  | .retention => rows

/-- The fraud view (app.py line 161):
`df[(df["Quantity"] <= 0) | (df["UnitPrice"] <= 0)]`. -/
def fraudView (df : List CleanedRecord) : List CleanedRecord :=
  df.filter (fun r => decide (r.quantity ≤ 0) || decide (r.unitPrice ≤ 0))

/-- The group keys of `df.groupby('CustomerID')`: the distinct customer ids. -/
def customersOf (df : List CleanedRecord) : List String :=
  (df.filterMap (·.customerID)).dedup

/-- The rows of one customer's group. -/
def custRows (df : List CleanedRecord) (c : String) : List CleanedRecord :=
  df.filter (fun r => decide (r.customerID = some c))

/-- The `Frequency` column of the RFM table (app.py line 113): the
`'InvoiceNo': 'count'` aggregation, i.e. the number of entries of the
`InvoiceNo` column within the customer's group. -/
def rfmFrequency (df : List CleanedRecord) (c : String) : Nat :=
  ((custRows df c).map (·.invoiceNo)).length

/-- The `Monetary` column of the RFM table (app.py line 114): the
`'Revenue': 'sum'` aggregation. -/
def rfmMonetary (df : List CleanedRecord) (c : String) : Rat :=
  ((custRows df c).map (·.revenue)).sum

/-- `df.groupby("CustomerID")["InvoiceNo"].nunique()` at one customer
(app.py line 167): the number of distinct invoices of that customer. -/
def nuniqueInvoices (df : List CleanedRecord) (c : String) : Nat :=
  ((custRows df c).map (·.invoiceNo)).dedup.length

/-- The repeat-purchase rate (app.py line 168): share of customers with
more than one distinct invoice, as a percentage. -/
def repeatRate (df : List CleanedRecord) : Rat :=
  (((customersOf df).countP (fun c => decide (1 < nuniqueInvoices df c)) : Rat) /
      ((customersOf df).length : Rat)) * 100

/-- Total quantity sold of one product
(`df.groupby("Description")["Quantity"].sum()` at one description). -/
def qtyByDescription (df : List CleanedRecord) (d : String) : Int :=
  ((df.filter (fun r => decide (r.description = d))).map (·.quantity)).sum

/-- `top_products` (app.py line 124): the 500 descriptions with the largest
total quantity (descending sort, then `head(500)`). -/
def top_products (df : List CleanedRecord) : List String :=
  (((((df.map (·.description)).dedup.map
        (fun d => (d, qtyByDescription df d))).mergeSort
        (fun a b => decide (b.2 ≤ a.2))).map (·.1)).take 500)

/-- `df_small` (app.py line 125): the rows whose product is a top product. -/
def df_small (df : List CleanedRecord) : List CleanedRecord :=
  df.filter (fun r => decide (r.description ∈ top_products df))

/-- One cell of the pivot before thresholding (app.py line 126): the summed
quantity of `prod` within invoice `inv`; `unstack().fillna(0)` makes it `0`
when the pair never occurs. -/
def basketQty (dfs : List CleanedRecord) (inv prod : String) : Int :=
  ((dfs.filter (fun r => decide (r.invoiceNo = inv ∧ r.description = prod))).map
      (·.quantity)).sum

/-- One cell of the boolean basket matrix (app.py line 127):
`basket = (basket > 0)`. -/
def basketEntry (dfs : List CleanedRecord) (inv prod : String) : Bool :=
  decide (0 < basketQty dfs inv prod)

/-- Outcome of an itemset-mining call: either a list of itemsets, or the
memory-exhaustion condition the handler catches. -/
inductive MiningOutcome (α : Type)
  | ok (val : α)
  | memError
deriving DecidableEq

/-- The one-hot basket matrix seen as a list of transactions, one per
invoice: each transaction is the list of products whose entry is true. -/
abbrev Transactions := List (List String)

/-- An itemset-mining strategy (the type of `apriori` and `fpgrowth`):
transactions and a minimum support in, itemsets or memory exhaustion out. -/
abbrev Miner : Type :=
  Transactions → Rat → MiningOutcome (List (List String))

/-- The distinct items occurring in the transactions. -/
def itemsOf (T : Transactions) : List String :=
  (T.flatMap id).dedup

/-- Number of transactions containing every item of `S`. -/
def supportCount (T : Transactions) (S : List String) : Nat :=
  T.countP (fun t => S.all (fun i => decide (i ∈ t)))

/-- Modelled from the spec: the support of an itemset, the fraction of
transactions (baskets) containing it — the quantity both external miners
threshold against `min_support`. -/
def support (T : Transactions) (S : List String) : Rat :=
  (supportCount T S : Rat) / (T.length : Rat)

/-- Whether an itemset is a (nonempty) frequent itemset at threshold `θ`. -/
def isFrequent (T : Transactions) (θ : Rat) (S : List String) : Bool :=
  !S.isEmpty && decide (θ ≤ support T S)

/-- Modelled from the spec: what it means for an external mining strategy
(`apriori` or `fpgrowth` of mlxtend, not part of this repository) to be a
correct frequent-itemset miner — whenever it succeeds, it returns exactly
the nonempty itemsets over the observed items whose support reaches the
threshold. -/
def OutcomeCorrect (m : Miner) : Prop :=
  ∀ T θ its, m T θ = .ok its →
    ∀ S, S ∈ its ↔ (S ∈ (itemsOf T).sublists ∧ isFrequent T θ S = true)

/-- The frequent itemsets by exhaustive enumeration: a reference miner. -/
def exactIts (T : Transactions) (θ : Rat) : List (List String) :=
  (itemsOf T).sublists.filter (isFrequent T θ)

/-- A reference mining strategy that always succeeds. -/
def exactMiner : Miner := fun T θ => .ok (exactIts T θ)

/-- A mining strategy that always exhausts memory. -/
def alwaysMemErr : Miner := fun _ _ => .memError

/-- Set difference of itemsets (`frozenset` difference in mlxtend):
the consequent `S - A` of a rule split. -/
def listDiff (S A : List String) : List String :=
  S.filter (fun i => !A.contains i)

/-- Modelled from the spec's glossary: lift of a rule, the ratio of the
observed co-occurrence frequency to the frequency expected were antecedent
and consequent independent. -/
def liftOf (T : Transactions) (A C : List String) : Rat :=
  support T (A ++ C) / (support T A * support T C)

/-- Modelled from the spec: the rules one frequent itemset contributes in
`association_rules(..., metric="lift", min_threshold=1)` — every split of
the itemset into a nonempty antecedent and nonempty consequent whose lift
is at least 1. -/
def rulesOfItemset (T : Transactions) (S : List String) :
    List (List String × List String) :=
  (S.sublists.filter (fun A =>
      !A.isEmpty && !(listDiff S A).isEmpty &&
        decide (1 ≤ liftOf T A (listDiff S A)))).map
    (fun A => (A, listDiff S A))

/-- Modelled from the spec: `association_rules` (app.py line 132) over a
list of frequent itemsets. -/
def association_rules (T : Transactions) (its : List (List String)) :
    List (List String × List String) :=
  its.flatMap (rulesOfItemset T)

/-- The try/except of the basket handler (app.py lines 128-131): run the
primary strategy at `min_support=0.02`; on memory exhaustion run the
fallback strategy on the same input at the same threshold (whose own
failure would propagate). -/
def basketTry (primary fallback : Miner) (T : Transactions) :
    MiningOutcome (List (List String)) :=
  match primary T (2 / 100) with
  | .ok its => .ok its
  | .memError => fallback T (2 / 100)

/-- The basket handler's mining stage end to end (app.py lines 128-132):
the rule set derived from whichever strategy's itemsets survived, `none`
when even the fallback exhausts memory. -/
def handlerRules (primary fallback : Miner) (T : Transactions) :
    Option (List (List String × List String)) :=
  match basketTry primary fallback T with
  | .ok its => some (association_rules T its)
  | .memError => none

/-- An example timestamp: 2010-12-01 08:26. -/
def tsEx : Timestamp := ⟨2010, 12, 1, 8, 26⟩

/-- A valid raw row. -/
def rEx1 : Record :=
  ⟨"536365", "85123A", "WHITE HANGING HEART T-LIGHT HOLDER", 6, tsEx,
    255 / 100, some "17850", "United Kingdom"⟩

/-- A cancellation row with negative quantity. -/
def rEx2 : Record :=
  ⟨"C536379", "D", "Discount", -1, tsEx, 2795 / 100, some "14527",
    "United Kingdom"⟩

/-- A row with a null customer id. -/
def rEx3 : Record :=
  ⟨"536366", "22633", "HAND WARMER UNION JACK", 6, tsEx, 185 / 100, none,
    "United Kingdom"⟩

/-- An example raw file. -/
def rawEx : List Record := [rEx1, rEx2, rEx3]

/-- The cleaned form of `rEx1`: revenue 6 × 2.55 = 15.30. -/
def cEx1 : CleanedRecord := ⟨rEx1, 153 / 10⟩

/-- A cleaned row of customer 17850 on invoice 536365. -/
def c10a : CleanedRecord :=
  ⟨⟨"536365", "85123A", "DESC A", 6, tsEx, 5 / 2, some "17850",
      "United Kingdom"⟩, 15⟩

/-- A second line item of the same customer on the same invoice. -/
def c10b : CleanedRecord :=
  ⟨⟨"536365", "71053", "DESC B", 2, tsEx, 1, some "17850",
      "United Kingdom"⟩, 2⟩

/-- A cleaned dataset with one customer buying two products on one invoice. -/
def ex10 : List CleanedRecord := [c10a, c10b]

/-- Two identical two-item baskets: enough support for one rule each way. -/
def T5 : Transactions := [["a", "b"], ["a", "b"]]

/-- A single one-item basket: frequent itemsets exist but no rule splits. -/
def T6 : Transactions := [["x"]]

end BIA

namespace BIA

section

attribute [local semireducible] Rat.mul Rat.add Rat.sub Rat.inv

theorem mem_load_data {raw : List Record} {r : CleanedRecord}
    (h : r ∈ load_data raw) :
    r.customerID.isSome = true ∧ ¬ strStartsWith r.invoiceNo "C" ∧
      0 < r.quantity ∧ r.revenue = (r.quantity : Rat) * r.unitPrice := by
  unfold load_data at h
  rcases List.mem_map.mp h with ⟨s, hs, rfl⟩
  rcases List.mem_filter.mp hs with ⟨hs2, hq⟩
  rcases List.mem_filter.mp hs2 with ⟨hs3, hc⟩
  rcases List.mem_filter.mp hs3 with ⟨_, hid⟩
  refine ⟨hid, ?_, ?_, rfl⟩
  · simpa using hc
  · simpa using hq

/-- C1: after the loader runs, every record of the cleaned dataset has a
non-null customer identifier, a strictly positive quantity, and an invoice
identifier that does not start with `"C"`. -/
theorem claim1_clean_invariants (raw : List Record) (r : CleanedRecord)
    (h : r ∈ load_data raw) :
    r.customerID.isSome = true ∧ 0 < r.quantity ∧
      ¬ strStartsWith r.invoiceNo "C" :=
  ⟨(mem_load_data h).1, (mem_load_data h).2.2.1, (mem_load_data h).2.1⟩

theorem claim1_clean_invariants_witness :
    cEx1 ∈ load_data rawEx ∧
      (cEx1.customerID.isSome = true ∧ 0 < cEx1.quantity ∧
        ¬ strStartsWith cEx1.invoiceNo "C") :=
  ⟨by decide, claim1_clean_invariants rawEx cEx1 (by decide)⟩

/-- C2: for every record of the cleaned dataset, the derived revenue field
equals the record's quantity multiplied by its unit price. -/
theorem claim2_revenue_product (raw : List Record) (r : CleanedRecord)
    (h : r ∈ load_data raw) :
    r.revenue = (r.quantity : Rat) * r.unitPrice :=
  (mem_load_data h).2.2.2

theorem claim2_revenue_product_witness :
    cEx1 ∈ load_data rawEx ∧ cEx1.revenue = (cEx1.quantity : Rat) * cEx1.unitPrice :=
  ⟨by decide, claim2_revenue_product rawEx cEx1 (by decide)⟩

theorem sum_map_filter_not_add (p : CleanedRecord → Bool)
    (f : CleanedRecord → Rat) (l : List CleanedRecord) :
    ((l.filter p).map f).sum + ((l.filter (fun x => !p x)).map f).sum =
      (l.map f).sum := by
  induction l with
  | nil => simp
  | cons a t ih =>
    cases hpa : p a <;> simp [List.filter_cons, hpa] <;> linarith [ih]

theorem country_partition (cs : List String) :
    ∀ df : List CleanedRecord, cs.Nodup → (∀ r ∈ df, r.country ∈ cs) →
      (cs.map (country_sales df)).sum = totalRevenue df := by
  induction cs with
  | nil =>
    intro df _ hcov
    have hdf : df = [] := by
      cases df with
      | nil => rfl
      | cons a t => exact absurd (hcov a (by simp)) (by simp)
    subst hdf
    simp [totalRevenue]
  | cons c cs ih =>
    intro df hnd hcov
    have hnotin : c ∉ cs := (List.nodup_cons.mp hnd).1
    have htail : cs.Nodup := (List.nodup_cons.mp hnd).2
    have hmap : ∀ c' ∈ cs, country_sales df c' =
        country_sales (df.filter (fun r => !(decide (r.country = c)))) c' := by
      intro c' hc'
      have hne : c' ≠ c := fun h => hnotin (h ▸ hc')
      unfold country_sales
      rw [List.filter_filter]
      have heq : df.filter (fun r => decide (r.country = c')) =
          df.filter (fun a => decide (a.country = c') && !decide (a.country = c)) := by
        apply List.filter_congr
        intro r _
        by_cases h : r.country = c'
        · simp [h, hne]
        · simp [h]
      rw [heq]
    have hcov' : ∀ r ∈ df.filter (fun r => !(decide (r.country = c))),
        r.country ∈ cs := by
      intro r hr
      rcases List.mem_filter.mp hr with ⟨hrdf, hrc⟩
      have hmem := hcov r hrdf
      simp only [Bool.not_eq_eq_eq_not, Bool.not_true, decide_eq_false_iff_not] at hrc
      simpa [hrc] using hmem
    rw [List.map_cons, List.sum_cons, List.map_congr_left hmap,
      ih _ htail hcov']
    have hsplit := sum_map_filter_not_add (fun r => decide (r.country = c))
      (·.revenue) df
    unfold country_sales totalRevenue
    linarith [hsplit]

/-- C3: the per-country revenue aggregates sum to the total revenue of the
cleaned dataset — grouping by country partitions the records. -/
theorem claim3_country_partition (df : List CleanedRecord) :
    ((countries df).map (country_sales df)).sum = totalRevenue df :=
  country_partition (countries df) df (List.nodup_dedup _)
    (fun _ hr => List.mem_dedup.mpr (List.mem_map_of_mem _ hr))

/-- C4: if the primary mining strategy reports memory exhaustion at
`min_support = 0.02`, the basket handler retries the very same input with
the fallback strategy at the same support threshold. -/
theorem claim4_memerror_fallback (primary fallback : Miner)
    (T : Transactions) (h : primary T (2 / 100) = .memError) :
    basketTry primary fallback T = fallback T (2 / 100) := by
  unfold basketTry
  rw [h]

theorem claim4_memerror_fallback_witness :
    alwaysMemErr T5 (2 / 100) = MiningOutcome.memError ∧
      basketTry alwaysMemErr exactMiner T5 = exactMiner T5 (2 / 100) :=
  ⟨rfl, claim4_memerror_fallback alwaysMemErr exactMiner T5 rfl⟩

theorem exactMiner_correct : OutcomeCorrect exactMiner := by
  intro T θ its h S
  simp only [exactMiner, MiningOutcome.ok.injEq] at h
  subst h
  simp [exactIts, List.mem_filter]

/-- C5: on the same basket input, two correct mining strategies that both
succeed at `min_support = 0.02` yield rule sets with the same members, so
whenever any rule exists at all the two rule sets overlap. -/
theorem claim5_strategy_overlap (a f : Miner) (ha : OutcomeCorrect a)
    (hf : OutcomeCorrect f) (T : Transactions)
    (isa isf : List (List String)) (hA : a T (2 / 100) = .ok isa)
    (hF : f T (2 / 100) = .ok isf) :
    (∀ r, r ∈ association_rules T isa ↔ r ∈ association_rules T isf) ∧
      (association_rules T isa ≠ [] →
        ∃ r, r ∈ association_rules T isa ∧ r ∈ association_rules T isf) := by
  have hmem : ∀ S, S ∈ isa ↔ S ∈ isf := fun S =>
    (ha T _ isa hA S).trans ((hf T _ isf hF S).symm)
  have hrule : ∀ r, r ∈ association_rules T isa ↔ r ∈ association_rules T isf := by
    intro r
    unfold association_rules
    rw [List.mem_flatMap, List.mem_flatMap]
    constructor
    · rintro ⟨S, hS, hrS⟩
      exact ⟨S, (hmem S).mp hS, hrS⟩
    · rintro ⟨S, hS, hrS⟩
      exact ⟨S, (hmem S).mpr hS, hrS⟩
  refine ⟨hrule, fun hne => ?_⟩
  obtain ⟨r, hr⟩ := List.exists_mem_of_ne_nil _ hne
  exact ⟨r, hr, (hrule r).mp hr⟩

theorem claim5_strategy_overlap_witness :
    association_rules T5 (exactIts T5 (2 / 100)) ≠ [] ∧
      (∃ r, r ∈ association_rules T5 (exactIts T5 (2 / 100)) ∧
        r ∈ association_rules T5 (exactIts T5 (2 / 100))) := by
  have h := claim5_strategy_overlap exactMiner exactMiner exactMiner_correct
    exactMiner_correct T5 (exactIts T5 (2 / 100)) (exactIts T5 (2 / 100)) rfl rfl
  exact ⟨by decide, h.2 (by decide)⟩

theorem claim6_counterexample :
    alwaysMemErr T6 (2 / 100) = MiningOutcome.memError ∧
      basketTry alwaysMemErr exactMiner T6 =
        MiningOutcome.ok (exactIts T6 (2 / 100)) ∧
      association_rules T6 (exactIts T6 (2 / 100)) = [] :=
  ⟨rfl, rfl, by decide⟩

/-- C6 (amended): when the primary strategy reports memory exhaustion and
the fallback succeeds, the handler produces exactly the rule set derived
from the fallback's itemsets at the same threshold; that rule set is empty
precisely when no fallback itemset contributes a rule, so it need not be
non-empty. -/
theorem claim6_fallback_rules (primary fallback : Miner) (T : Transactions)
    (its : List (List String)) (hp : primary T (2 / 100) = .memError)
    (hf : fallback T (2 / 100) = .ok its) :
    handlerRules primary fallback T = some (association_rules T its) ∧
      (association_rules T its = [] ↔ ∀ S ∈ its, rulesOfItemset T S = []) := by
  unfold handlerRules basketTry
  rw [hp, hf]
  exact ⟨rfl, List.flatMap_eq_nil_iff⟩

theorem claim6_fallback_rules_witness :
    handlerRules alwaysMemErr exactMiner T6 =
        some (association_rules T6 (exactIts T6 (2 / 100))) ∧
      (association_rules T6 (exactIts T6 (2 / 100)) = [] ↔
        ∀ S ∈ exactIts T6 (2 / 100), rulesOfItemset T6 S = []) :=
  claim6_fallback_rules alwaysMemErr exactMiner T6 (exactIts T6 (2 / 100))
    rfl rfl

/-- C7: no report handler changes the loader-produced part of the cached
dataframe — each handler at most fills derived columns, leaving the row
order and every loader column value intact. -/
theorem claim7_frame_preservation (s : ReportSection) (rows : List Row) :
    (runSection s rows).map Row.base = rows.map Row.base := by
  cases s <;> simp [runSection, List.map_map, Function.comp]

theorem int_sum_pos_iff (l : List Int) (hpos : ∀ x ∈ l, 0 < x) :
    0 < l.sum ↔ l ≠ [] := by
  induction l with
  | nil => simp
  | cons a t _ =>
    have ha := hpos a (by simp)
    have hts : (0 : Int) ≤ t.sum :=
      List.sum_nonneg fun x hx => le_of_lt (hpos x (List.mem_cons_of_mem a hx))
    simp only [List.sum_cons]
    constructor
    · intro _
      simp
    · intro _
      linarith

/-- C8: a cell of the boolean basket matrix is true exactly when that
product occurs in that invoice (with positive quantity) among the rows the
basket handler mines. -/
theorem claim8_basket_cell (raw : List Record) (inv prod : String) :
    basketEntry (df_small (load_data raw)) inv prod = true ↔
      ∃ r, r ∈ df_small (load_data raw) ∧ r.invoiceNo = inv ∧
        r.description = prod ∧ 0 < r.quantity := by
  have hq : ∀ r ∈ df_small (load_data raw), (0 : Int) < r.quantity := by
    intro r hr
    exact (mem_load_data (List.mem_of_mem_filter hr)).2.2.1
  unfold basketEntry basketQty
  rw [decide_eq_true_eq]
  have hlpos : ∀ x ∈ ((df_small (load_data raw)).filter
      (fun r => decide (r.invoiceNo = inv ∧ r.description = prod))).map
        (·.quantity), 0 < x := by
    intro x hx
    rcases List.mem_map.mp hx with ⟨r, hr, rfl⟩
    exact hq r (List.mem_of_mem_filter hr)
  rw [int_sum_pos_iff _ hlpos]
  constructor
  · intro hne
    have hl : (df_small (load_data raw)).filter
        (fun r => decide (r.invoiceNo = inv ∧ r.description = prod)) ≠ [] := by
      simpa using hne
    obtain ⟨r, hr⟩ := List.exists_mem_of_ne_nil _ hl
    rcases List.mem_filter.mp hr with ⟨hrdfs, hcond⟩
    rw [decide_eq_true_eq] at hcond
    exact ⟨r, hrdfs, hcond.1, hcond.2, hq r hrdfs⟩
  · rintro ⟨r, hrdfs, hinv, hdesc, _⟩
    intro hnil
    have hlnil : (df_small (load_data raw)).filter
        (fun r => decide (r.invoiceNo = inv ∧ r.description = prod)) = [] := by
      simpa using hnil
    have hrl : r ∈ (df_small (load_data raw)).filter
        (fun r => decide (r.invoiceNo = inv ∧ r.description = prod)) :=
      List.mem_filter.mpr ⟨hrdfs, by simp [hinv, hdesc]⟩
    rw [hlnil] at hrl
    exact absurd hrl (List.not_mem_nil r)

/-- C9: on the cleaned dataset the fraud view's non-positive-quantity
disjunct is unreachable — the flagged rows are exactly those with
non-positive unit price, and every flagged row has unit price ≤ 0. -/
theorem claim9_fraud_unitprice (raw : List Record) :
    fraudView (load_data raw) =
        (load_data raw).filter (fun r => decide (r.unitPrice ≤ 0)) ∧
      ∀ r ∈ fraudView (load_data raw), r.unitPrice ≤ 0 := by
  have hfilter : fraudView (load_data raw) =
      (load_data raw).filter (fun r => decide (r.unitPrice ≤ 0)) := by
    unfold fraudView
    apply List.filter_congr
    intro r hr
    have hqpos := (mem_load_data hr).2.2.1
    have hq : ¬ (r.quantity ≤ 0) := not_le.mpr hqpos
    simp [hq]
  refine ⟨hfilter, ?_⟩
  intro r hr
  rw [hfilter] at hr
  have := (List.mem_filter.mp hr).2
  simpa using this

/-- C10: the RFM `Frequency` of a customer counts that customer's
transaction rows (the `'count'` aggregation), an upper bound of — and in
general different from — the distinct-invoice count `nunique` that the
retention view's repeat-purchase rate is built from. -/
theorem claim10_frequency_vs_nunique :
    (∀ df c, rfmFrequency df c = (custRows df c).length) ∧
      (∀ df c, nuniqueInvoices df c ≤ rfmFrequency df c) ∧
      rfmFrequency ex10 "17850" = 2 ∧ nuniqueInvoices ex10 "17850" = 1 ∧
      repeatRate ex10 = 0 := by
  refine ⟨?_, ?_, by decide, by decide, by decide⟩
  · intro df c
    unfold rfmFrequency
    exact List.length_map _ _
  · intro df c
    unfold nuniqueInvoices rfmFrequency
    exact (List.dedup_sublist _).length_le

end

end BIA
